import Mathlib

/-!
# go-bloxroute `stream` package: a verification development

Shallow embedding of `stream/transaction.go`, `stream/rpc.go` and
`stream/stream.go`.

* a Go `error` is a value of `GoError` (`errors.New`, `errors.Wrap`);
* a nilable pointer is an `Option`;
* a websocket message is a list of bytes (`List Nat`);
* the transport, the JSON decoder and the clock are the environment: what a
  connection yields is a list of read outcomes, each stamped with the clock
  reading at which the message is handled, and `json.Unmarshal` is a parameter;
* the background goroutine of `Start` is a function from a script of connect
  attempts to the trace of the effects it performs, in order;
* a send on the output channel is taken to complete (the consumer drains the
  channel), so the records sent are listed in the order of the sends;
* the cache and backoff libraries are not part of the sources; they are
  modelled from the specification, the backoff without its jitter and with the
  library's defaults for parameters left at zero.
-/

namespace Bloxroute

/-! ## Errors -/

/-- A Go `error`: `new msg` is `errors.New(msg)` (also any error produced by
the transport or the decoder), `wrap cause msg` is `errors.Wrap(cause, msg)`. -/
inductive GoError where
  | new (msg : String)
  | wrap (cause : GoError) (msg : String)
  deriving DecidableEq

/-- The `Error()` text: a wrapped error prints `msg: cause`. -/
def GoError.Error : GoError → String
  | .new msg => msg
  | .wrap cause msg => msg ++ ": " ++ cause.Error

/-- The `errors.Cause` of an error: the innermost wrapped error. -/
def GoError.Cause : GoError → GoError
  | .new msg => .new msg
  | .wrap cause _ => cause.Cause

/-! ## transaction.go -/

/-- The `Transaction` struct. -/
structure Transaction where
  Hash : String
  From : String
  To : String
  Gas : String
  GasPrice : String
  Input : String
  Value : String
  Nonce : String
  deriving DecidableEq

/-- The method `(tx *Transaction) Validate()`: the receiver is a pointer (`none` is nil),
the result is the error (`none` is a nil error). The cases of the `switch` are
tried top to bottom. -/
def Transaction.Validate : Option Transaction → Option GoError
  | none => some (.new "is nil")
  | some tx =>
    if tx.Hash = "" then some (.new "hash is unset")
    else if tx.From = "" then some (.new "from is unset")
    else if tx.To = "" then some (.new "to is unset")
    else if tx.Gas = "" then some (.new "gas is unset")
    else if tx.GasPrice = "" then some (.new "gasPrice is unset")
    else if tx.Nonce = "" then some (.new "nonce is unset")
    else none

/-- The required fields of a record in the precedence order of the
specification, each with its wire name: hash, from, to, gas, gasPrice, nonce. -/
def requiredFields (tx : Transaction) : List (String × String) :=
  [("hash", tx.Hash), ("from", tx.From), ("to", tx.To), ("gas", tx.Gas),
   ("gasPrice", tx.GasPrice), ("nonce", tx.Nonce)]

/-- The name of the first required field that is empty, if there is one. -/
def firstUnset (tx : Transaction) : Option String :=
  ((requiredFields tx).find? (fun f => f.2 = "")).map (fun f => f.1)

/-! ## rpc.go -/

/-- The `Result` struct: `TX` is a pointer and may be nil. -/
structure Result where
  TX : Option Transaction
  deriving DecidableEq

/-- The `Params` struct. -/
structure Params where
  Subscription : String
  Result : Option Result
  deriving DecidableEq

/-- The `Message` struct: the decoded envelope. -/
structure Message where
  Version : String
  Method : String
  Params : Option Params
  deriving DecidableEq

/-! ## Time, the dedup cache and the backoff -/

/-- The value of `time.Millisecond`, in nanoseconds. -/
def Millisecond : Nat := 1000000

/-- The value of `time.Second`, in nanoseconds. -/
def Second : Nat := 1000000000

/-- The value of `time.Minute`, in nanoseconds. -/
def Minute : Nat := 60 * Second

/-- Modelled from the spec: the cache library (`github.com/patrickmn/go-cache`)
is not in src/. A cache maps a record identifier to a presence marker with a
fixed time-to-live, counted from insertion (absolute expiry, not sliding).
`items` holds the identifiers with their expiry instants, latest insertion
first; expiry is time-driven, so an expired entry is simply not found. -/
structure Cache where
  defaultExpiration : Nat
  items : List (String × Nat)
  deriving DecidableEq

/-- The call `cache.New(defaultExpiration, cleanupInterval)`: an empty cache.
The cleanup interval only bounds how long an expired entry stays in memory. -/
def Cache.New (defaultExpiration _cleanupInterval : Nat) : Cache :=
  { defaultExpiration := defaultExpiration, items := [] }

/-- The presence check `Get(k)` at clock reading `now`: whether `k` has an
entry that has not expired (an entry lives at least until its TTL elapses). -/
def Cache.Get (c : Cache) (now : Nat) (k : String) : Bool :=
  match c.items.lookup k with
  | none => false
  | some expiry => decide (now ≤ expiry)

/-- The insertion `SetDefault(k, true)` at clock reading `now`: `k` is present
until `now` plus the fixed time-to-live. -/
def Cache.SetDefault (c : Cache) (now : Nat) (k : String) : Cache :=
  { c with items := (k, now + c.defaultExpiration) :: c.items }

/-- Modelled from the spec: the backoff library (`github.com/jpillora/backoff`)
is not in src/. The state of a backoff: the delay is bounded by a minimum and a
maximum and grows by a multiplicative factor per consecutive failure;
`attempt` counts the delays drawn since the last reset. Durations are in
nanoseconds. -/
structure Backoff where
  Min : Nat
  Max : Nat
  Factor : Nat
  Jitter : Bool
  attempt : Nat
  deriving DecidableEq

/-- Modelled from the spec: the minimum delay that the backoff library, which
is not in src/, applies. The spec bounds the delay by a minimum; beyond the
spec, the library's reading of a zero value is kept: a zero `Min` is unset and
stands for 100ms. -/
def Backoff.effMin (b : Backoff) : Nat :=
  if b.Min = 0 then 100 * Millisecond else b.Min

/-- Modelled from the spec: the maximum delay that the backoff library, which
is not in src/, applies. Beyond the spec, a zero `Max` is unset and stands for
10s. -/
def Backoff.effMax (b : Backoff) : Nat :=
  if b.Max = 0 then 10 * Second else b.Max

/-- Modelled from the spec: the multiplicative factor that the backoff library,
which is not in src/, applies. Beyond the spec, a zero `Factor` is unset and
stands for 2. -/
def Backoff.effFactor (b : Backoff) : Nat :=
  if b.Factor = 0 then 2 else b.Factor

/-- Modelled from the spec: `Duration()` of the backoff library, which is not
in src/, with jitter left out. The delay drawn is
`min(min_delay * factor^k, max_delay)` where `k` delays were drawn since the
last reset and the minimum, maximum and factor are the ones the library
applies; drawing it advances the count. -/
def Backoff.Duration (b : Backoff) : Nat × Backoff :=
  (min (b.effMin * b.effFactor ^ b.attempt) b.effMax, { b with attempt := b.attempt + 1 })

/-- Modelled from the spec: `Reset()` of the backoff library, which is not in
src/. The next delay drawn is the first of a new run of failures. -/
def Backoff.Reset (b : Backoff) : Backoff :=
  { b with attempt := 0 }

/-! ## stream.go: constants and the `Stream` struct -/

def CloudWS : String := "wss://api.blxrbdn.com/ws"

def EnterpriseCloudWS : String := "wss://eth.feed.blxrbdn.com:28333"

def DefaultQueueSize : Nat := 100

def BackoffMin : Nat := 0 * Second

def BackoffMax : Nat := 5 * Second

def BackoffFactor : Nat := 2

def BackoffJitter : Bool := true

/-- A `tls.Certificate`, kept abstract. -/
structure Certificate where
  id : Nat
  deriving DecidableEq

/-- A `chan *Transaction` with its capacity. -/
structure Chan where
  capacity : Nat
  deriving DecidableEq

/-- The `Stream` struct (without the mutex, the unused `stopC`, and `cache`,
which `Start` creates and the loop below carries in its state). A callback
field says whether the callback is set; calling it is an event of the trace. -/
structure Stream where
  authHeader : String
  cert : Option Certificate
  url : String
  insecure : Bool
  backoff : Option Backoff
  txC : Option Chan
  onConnect : Bool
  onError : Bool
  onReconnect : Bool
  deriving DecidableEq

/-- The fields of `tls.Config` that `Start` sets. -/
structure TLSConfig where
  Certificates : List Certificate
  InsecureSkipVerify : Bool
  deriving DecidableEq

/-- The field of `websocket.Dialer` that `Start` sets. -/
structure Dialer where
  TLSClientConfig : Option TLSConfig
  deriving DecidableEq

/-! ## stream.go: the consume loop -/

/-- One `conn.ReadMessage()` of the consume loop: its outcome (`error e` is a
read error, `ok msg` the bytes of the message) and the clock reading while the
message is handled. -/
structure Read where
  now : Nat
  res : Except GoError (List Nat)

/-- What `fetchTXs` has done: the dedup cache it leaves, the records sent on
`txC` in order, and the error it returned. `err = none` means that the reads
supplied are used up and the loop is waiting in `ReadMessage`. -/
structure FetchResult where
  cache : Cache
  sent : List Transaction
  err : Option GoError
  deriving DecidableEq

/-- The nested record of an envelope, following the nil checks
`m.Params == nil || m.Params.Result == nil || m.Params.Result.TX == nil`. -/
def Message.tx (m : Message) : Option Transaction :=
  match m.Params with
  | none => none
  | some p =>
    match p.Result with
    | none => none
    | some r => r.TX

/-- The method `(s *Stream) fetchTXs(conn, txC)`, run on the reads the connection yields.
`unmarshal` is `json.Unmarshal` into a `Message`. -/
def fetchTXs (unmarshal : List Nat → Except GoError Message) (cache : Cache) :
    List Read → FetchResult
  | [] => { cache := cache, sent := [], err := none }
  | r :: rest =>
    match r.res with
    | .error err => { cache := cache, sent := [], err := some err }
    | .ok msg =>
      match unmarshal msg with
      | .error err => { cache := cache, sent := [], err := some err }
      | .ok m =>
        match m.tx with
        | none =>
          { cache := cache, sent := [], err := some (.new "unexpected message format") }
        | some tx =>
          match Transaction.Validate (some tx) with
          | some err =>
            { cache := cache, sent := [], err := some (.wrap err "tx validation failed") }
          | none =>
            if cache.Get r.now tx.Hash then
              fetchTXs unmarshal cache rest
            else
              let out := fetchTXs unmarshal (cache.SetDefault r.now tx.Hash) rest
              { out with sent := tx :: out.sent }

/-- The record that a read delivers: the message was read, it decoded, and the
envelope has its nested record. -/
def Read.record (unmarshal : List Nat → Except GoError Message) (r : Read) :
    Option Transaction :=
  match r.res with
  | .error _ => none
  | .ok msg =>
    match unmarshal msg with
    | .error _ => none
    | .ok m => m.tx

/-- A read that delivers a structurally valid envelope carrying `tx`: the
record is there and passes `Validate`. -/
def Read.carries (unmarshal : List Nat → Except GoError Message) (r : Read)
    (tx : Transaction) : Prop :=
  r.record unmarshal = some tx ∧ Transaction.Validate (some tx) = none

instance (unmarshal : List Nat → Except GoError Message) (r : Read) (tx : Transaction) :
    Decidable (r.carries unmarshal tx) :=
  inferInstanceAs
    (Decidable (r.record unmarshal = some tx ∧ Transaction.Validate (some tx) = none))

/-- The identifiers that have an entry in the cache. -/
def Cache.keys (c : Cache) : List String :=
  c.items.map Prod.fst

/-! ## stream.go: `Start` -/

/-- The effects of the background goroutine of `Start`, in program order. -/
inductive Event where
  | dial (url : String) (header : List (String × String)) (tls : Option TLSConfig)
  | write (msg : String)
  | read
  | close
  | onConnect
  | onReconnect
  | onError (err : GoError)
  | duration (d : Nat)
  | sleep (d : Nat)
  | reset
  | send (tx : Transaction)
  deriving DecidableEq

/-- What the environment does during one iteration of the reconnect loop: the
error of `dialer.Dial` and of the `WriteMessage` of the subscribe request (if
any), the outcome of the one `ReadMessage` of the response, and the reads of
the session that follows. -/
structure Attempt where
  dial : Option GoError
  write : Option GoError
  resp : Except GoError (List Nat)
  session : List Read

/-- The local variables of `Start` that the closures capture. -/
structure Setup where
  dialer : Dialer
  url : String
  header : List (String × String)
  txC : Chan
  bo : Backoff
  cache : Cache
  deriving DecidableEq

/-- The subscribe request. -/
def subscribeRequest : String :=
  "\x7b\"id\": 1, \"method\": \"subscribe\", \"params\": [\"newTxs\", \x7b\"include\": [\"tx_contents\"]\x7d]\x7d"

/-- The bytes of the marker `"error"` (with its quotes). -/
def errorMarker : List Nat := [34, 101, 114, 114, 111, 114, 34]

/-- The test `bytes.Contains(msg, sub)`. -/
def bytesContains (msg sub : List Nat) : Bool :=
  decide (sub <:+: msg)

/-- The part of `Start` before the goroutine is launched: the defaults, the
fresh cache and the choice of the authentication. `dialer` is
`websocket.DefaultDialer` as found. -/
def Start.prepare (s : Stream) (dialer : Dialer) : Except GoError Setup :=
  let txC := match s.txC with
    | some c => c
    | none => { capacity := DefaultQueueSize }
  let bo := match s.backoff with
    | some b => b
    | none => { Min := BackoffMin, Max := BackoffMax, Factor := BackoffFactor,
                Jitter := BackoffJitter, attempt := 0 }
  let cache := Cache.New (1 * Minute) (2 * Minute)
  match s.cert with
  | some cert =>
    let tls : TLSConfig := { Certificates := [cert], InsecureSkipVerify := s.insecure }
    .ok { dialer := { dialer with TLSClientConfig := some tls },
          url := if s.url = "" then EnterpriseCloudWS else s.url,
          header := [], txC := txC, bo := bo, cache := cache }
  | none =>
    if s.authHeader ≠ "" then
      .ok { dialer := dialer,
            url := if s.url = "" then CloudWS else s.url,
            header := [("Authorization", s.authHeader)], txC := txC, bo := bo, cache := cache }
    else
      .error (.new "no authentication set")

/-- The closure `connect`: the effects on the transport and the error returned
(`none`: the connection is returned). -/
def connect (su : Setup) (a : Attempt) : List Event × Option GoError :=
  let dialed := Event.dial su.url su.header su.dialer.TLSClientConfig
  match a.dial with
  | some err => ([dialed], some err)
  | none =>
    match a.write with
    | some err => ([dialed, .write subscribeRequest, .close], some err)
    | none =>
      match a.resp with
      | .error err => ([dialed, .write subscribeRequest, .read, .close], some err)
      | .ok msg =>
        if bytesContains msg errorMarker then
          ([dialed, .write subscribeRequest, .read, .close], some (.new "subscription failed"))
        else
          ([dialed, .write subscribeRequest, .read], none)

/-- The variables the reconnect loop changes: `first`, the state of the backoff
`bo` and the content of `s.cache`. -/
structure LoopState where
  first : Bool
  bo : Backoff
  cache : Cache
  deriving DecidableEq

/-- One iteration of the `for` loop of the goroutine: its effects, the state
it leaves, and whether the loop goes on to the next iteration (`false`: the
session is still open, waiting for a message). -/
def Start.iteration (unmarshal : List Nat → Except GoError Message) (s : Stream)
    (su : Setup) (st : LoopState) (a : Attempt) : List Event × LoopState × Bool :=
  match connect su a with
  | (evs, some err) =>
    let reported := if s.onError then [Event.onError err] else []
    let (d, bo) := st.bo.Duration
    (evs ++ reported ++ [.duration d, .sleep d], { st with bo := bo }, true)
  | (evs, none) =>
    let bo := st.bo.Reset
    let (called, first) :=
      if st.first then
        if s.onConnect then ([Event.onConnect], false) else ([], st.first)
      else if s.onReconnect then ([Event.onReconnect], st.first)
      else ([], st.first)
    let r := fetchTXs unmarshal st.cache a.session
    let forwarded := r.sent.map Event.send
    match r.err with
    | none =>
      (evs ++ [.reset] ++ called ++ forwarded,
        { first := first, bo := bo, cache := r.cache }, false)
    | some err =>
      let reported := if s.onError then [Event.onError err] else []
      (evs ++ [.reset] ++ called ++ forwarded ++ [.close] ++ reported,
        { first := first, bo := bo, cache := r.cache }, true)

/-- The `for` loop of the goroutine, run over a script of attempts: the trace
of its effects and the state it is left in. -/
def Start.loop (unmarshal : List Nat → Except GoError Message) (s : Stream) (su : Setup) :
    LoopState → List Attempt → List Event × LoopState
  | st, [] => ([], st)
  | st, a :: rest =>
    match Start.iteration unmarshal s su st a with
    | (evs, st', true) =>
      let out := Start.loop unmarshal s su st' rest
      (evs ++ out.1, out.2)
    | (evs, st', false) => (evs, st')

/-- What `Start` returns, and the trace of the goroutine it launched. -/
structure StartResult where
  txC : Option Chan
  err : Option GoError
  trace : List Event
  deriving DecidableEq

/-- The method `(s *Stream) Start()`, with the script that the environment plays to
its goroutine. -/
def Start (unmarshal : List Nat → Except GoError Message) (s : Stream) (dialer : Dialer)
    (script : List Attempt) : StartResult :=
  match Start.prepare s dialer with
  | .error err => { txC := none, err := some err, trace := [] }
  | .ok su =>
    { txC := some su.txC, err := none,
      trace := (Start.loop unmarshal s su
                  { first := true, bo := su.bo, cache := su.cache } script).1 }

/-- The callbacks that an iteration calls after a successful connect, and the
value of `first` it leaves: the `if first ... else if ...` of the loop body. -/
def Start.called (s : Stream) (first : Bool) : List Event × Bool :=
  if first then
    if s.onConnect then ([Event.onConnect], false) else ([], first)
  else if s.onReconnect then ([Event.onReconnect], first)
  else ([], first)

/-- The delay that an event draws from the backoff, if it is a draw. -/
def Event.delay : Event → Option Nat
  | .duration d => some d
  | _ => none

/-- The backoff delays drawn in a trace, in order. -/
def durations (evs : List Event) : List Nat :=
  evs.filterMap Event.delay

/-- The records forwarded in a trace, in order. -/
def forwards (evs : List Event) : List Transaction :=
  evs.filterMap (fun ev => match ev with
    | .send tx => some tx
    | _ => none)

/-! ## Sample data for the examples -/

/-- A record with the given identifier and nonce, its other required fields
set. -/
def sampleTx (hash nonce : String) : Transaction :=
  { Hash := hash, From := "0x50d6", To := "0xd286", Gas := "0x7a120",
    GasPrice := "0x17bfac7c00", Input := "0x202e", Value := "0x0", Nonce := nonce }

/-- The notification envelope around a record. -/
def sampleEnvelope (tx : Transaction) : Message :=
  { Version := "2.0", Method := "subscribe",
    Params := some { Subscription := "c294f047", Result := some { TX := some tx } } }

/-- A stand-in for `json.Unmarshal` on six one-byte messages: `[1]`, `[2]` are
envelopes of the valid records `0xaaa`, `0xbbb`; `[3]` carries a record with
an empty nonce; `[4]`, `[5]`, `[6]` lack `params`, `result`, `txContents`;
anything else does not decode. -/
def sampleUnmarshal : List Nat → Except GoError Message
  | [1] => .ok (sampleEnvelope (sampleTx "0xaaa" "0xd0e2"))
  | [2] => .ok (sampleEnvelope (sampleTx "0xbbb" "0xd0e3"))
  | [3] => .ok (sampleEnvelope (sampleTx "0xccc" ""))
  | [4] => .ok { Version := "2.0", Method := "subscribe", Params := none }
  | [5] => .ok { Version := "2.0", Method := "subscribe",
                 Params := some { Subscription := "c294f047", Result := none } }
  | [6] => .ok { Version := "2.0", Method := "subscribe",
                 Params := some { Subscription := "c294f047", Result := some { TX := none } } }
  | _ => .error (.new "unexpected end of JSON input")

/-- A stream configured with an account token and the three callbacks. -/
def sampleStream : Stream :=
  { authHeader := "YWNjb3VudDpzZWNyZXQ=", cert := none, url := "", insecure := false,
    backoff := none, txC := none, onConnect := true, onError := true, onReconnect := true }

/-! ## Record validation -/

/-- The method `Validate` accepts a record exactly when its six required fields are all
non-empty. -/
theorem Validate_eq_none_iff (tx : Transaction) :
    Transaction.Validate (some tx) = none ↔
      (tx.Hash ≠ "" ∧ tx.From ≠ "" ∧ tx.To ≠ "" ∧ tx.Gas ≠ "" ∧ tx.GasPrice ≠ ""
        ∧ tx.Nonce ≠ "") := by
  simp only [Transaction.Validate]
  by_cases h1 : tx.Hash = ""
  · simp [h1]
  by_cases h2 : tx.From = ""
  · simp [h1, h2]
  by_cases h3 : tx.To = ""
  · simp [h1, h2, h3]
  by_cases h4 : tx.Gas = ""
  · simp [h1, h2, h3, h4]
  by_cases h5 : tx.GasPrice = ""
  · simp [h1, h2, h3, h4, h5]
  by_cases h6 : tx.Nonce = ""
  · simp [h1, h2, h3, h4, h5, h6]
  simp [h1, h2, h3, h4, h5, h6]

/-- C1: for every non-nil transaction, `Validate` returns the error
`<field> is unset` for the first empty field in the order hash, from, to, gas,
gasPrice, nonce; it returns nil exactly when none of the six is empty; and the
`Value` and `Input` fields never influence the result. -/
theorem Validate_names_first_unset_field (tx : Transaction) :
    Transaction.Validate (some tx)
        = (firstUnset tx).map (fun f => GoError.new (f ++ " is unset"))
    ∧ (Transaction.Validate (some tx) = none ↔
        (tx.Hash ≠ "" ∧ tx.From ≠ "" ∧ tx.To ≠ "" ∧ tx.Gas ≠ "" ∧ tx.GasPrice ≠ ""
          ∧ tx.Nonce ≠ ""))
    ∧ (∀ v i : String,
        Transaction.Validate (some { tx with Value := v, Input := i })
          = Transaction.Validate (some tx)) := by
  refine ⟨?_, ?_, ?_⟩
  · simp only [Transaction.Validate, firstUnset, requiredFields, List.find?]
    by_cases h1 : tx.Hash = ""
    · simp [h1]
    by_cases h2 : tx.From = ""
    · simp [h1, h2]
    by_cases h3 : tx.To = ""
    · simp [h1, h2, h3]
    by_cases h4 : tx.Gas = ""
    · simp [h1, h2, h3, h4]
    by_cases h5 : tx.GasPrice = ""
    · simp [h1, h2, h3, h4, h5]
    by_cases h6 : tx.Nonce = ""
    · simp [h1, h2, h3, h4, h5, h6]
    simp [h1, h2, h3, h4, h5, h6]
  · exact Validate_eq_none_iff tx
  · intro v i
    rfl

section ConsumeLoop

/-! ## Lemmas on the consume loop -/

variable (unmarshal : List Nat → Except GoError Message)

theorem fetchTXs_cons_valid (c : Cache) (r : Read) (rest : List Read) (tx : Transaction)
    (h : r.carries unmarshal tx) :
    fetchTXs unmarshal c (r :: rest) =
      if c.Get r.now tx.Hash then fetchTXs unmarshal c rest
      else
        { fetchTXs unmarshal (c.SetDefault r.now tx.Hash) rest with
          sent := tx :: (fetchTXs unmarshal (c.SetDefault r.now tx.Hash) rest).sent } := by
  obtain ⟨hrec, hval⟩ := h
  unfold Read.record at hrec
  rw [fetchTXs]
  cases hres : r.res with
  | error e => simp [hres] at hrec
  | ok msg =>
    simp only [hres] at hrec ⊢
    cases hun : unmarshal msg with
    | error e => simp [hun] at hrec
    | ok m =>
      simp only [hun] at hrec ⊢
      simp only [hrec, hval]

theorem fetchTXs_cons_invalid (c : Cache) (r : Read) (rest : List Read) (tx : Transaction)
    (e : GoError) (hrec : r.record unmarshal = some tx)
    (hval : Transaction.Validate (some tx) = some e) :
    fetchTXs unmarshal c (r :: rest) =
      { cache := c, sent := [], err := some (.wrap e "tx validation failed") } := by
  unfold Read.record at hrec
  rw [fetchTXs]
  cases hres : r.res with
  | error e => simp [hres] at hrec
  | ok msg =>
    simp only [hres] at hrec ⊢
    cases hun : unmarshal msg with
    | error e => simp [hun] at hrec
    | ok m =>
      simp only [hun] at hrec ⊢
      simp only [hrec, hval]

theorem fetchTXs_cons_missing (c : Cache) (r : Read) (rest : List Read) (msg : List Nat)
    (m : Message) (hres : r.res = .ok msg) (hun : unmarshal msg = .ok m)
    (hm : m.tx = none) :
    fetchTXs unmarshal c (r :: rest) =
      { cache := c, sent := [], err := some (.new "unexpected message format") } := by
  rw [fetchTXs]
  simp only [hres, hun, hm]

theorem fetchTXs_append (c : Cache) (pre rest : List Read)
    (h : (fetchTXs unmarshal c pre).err = none) :
    fetchTXs unmarshal c (pre ++ rest) =
      { cache := (fetchTXs unmarshal (fetchTXs unmarshal c pre).cache rest).cache,
        sent := (fetchTXs unmarshal c pre).sent
                  ++ (fetchTXs unmarshal (fetchTXs unmarshal c pre).cache rest).sent,
        err := (fetchTXs unmarshal (fetchTXs unmarshal c pre).cache rest).err } := by
  induction pre generalizing c with
  | nil => simp [fetchTXs]
  | cons r pre ih =>
    rw [List.cons_append]
    rw [fetchTXs] at h ⊢
    rw [fetchTXs]
    cases hres : r.res with
    | error e => simp [hres] at h
    | ok msg =>
      simp only [hres] at h ⊢
      cases hun : unmarshal msg with
      | error e => simp [hun] at h
      | ok m =>
        simp only [hun] at h ⊢
        cases hm : m.tx with
        | none => simp [hm] at h
        | some tx =>
          simp only [hm] at h ⊢
          cases hv : Transaction.Validate (some tx) with
          | some e => simp [hv] at h
          | none =>
            simp only [hv] at h ⊢
            by_cases hg : c.Get r.now tx.Hash = true
            · simp only [hg, if_true] at h ⊢
              exact ih c h
            · simp only [hg] at h ⊢
              simp only [Bool.false_eq_true, if_false] at h ⊢
              rw [ih _ h]
              simp

end ConsumeLoop

section Dedup

variable (unmarshal : List Nat → Except GoError Message)

theorem Cache.SetDefault_keys (c : Cache) (now : Nat) (k : String) :
    (c.SetDefault now k).keys = k :: c.keys := rfl

theorem Cache.Get_of_not_mem_keys (c : Cache) (now : Nat) (k : String)
    (h : k ∉ c.keys) : c.Get now k = false := by
  have hl : c.items.lookup k = none := by
    rw [List.lookup_eq_none_iff]
    intro p hp
    rw [bne_iff_ne]
    intro hk
    apply h
    simp only [Cache.keys, List.mem_map]
    exact ⟨p, hp, hk.symm⟩
  simp [Cache.Get, hl]

theorem lookup_live (now : Nat) (k : String) :
    ∀ l : List (String × Nat), (∀ p ∈ l, now ≤ p.2) →
      (match l.lookup k with
        | none => false
        | some expiry => decide (now ≤ expiry)) = decide (k ∈ l.map Prod.fst)
  | [], _ => by simp
  | (k', e) :: l, h => by
    have ih := lookup_live now k l (fun p hp => h p (List.mem_cons_of_mem _ hp))
    have he : now ≤ e := h (k', e) (List.mem_cons_self _ _)
    by_cases hk : k = k'
    · subst hk
      simp only [List.lookup_cons_self, List.map_cons, List.mem_cons, true_or, decide_True,
        decide_eq_true_eq]
      exact he
    · have hb : (k == k') = false := by simpa using hk
      rw [List.lookup_cons, hb]
      simp only [List.map_cons, List.mem_cons, hk, false_or]
      exact ih

theorem Cache.Get_of_live (c : Cache) (now : Nat) (k : String)
    (hlive : ∀ p ∈ c.items, now ≤ p.2) :
    c.Get now k = decide (k ∈ c.keys) :=
  lookup_live now k c.items hlive

/-- While nothing expires, the consume loop forwards the first record of every
identifier that is not yet in the cache, and only those. -/
theorem fetchTXs_dedup_in_window (reads : List Read) (txs : List Transaction)
    (hvalid : List.Forall₂ (Read.carries unmarshal) reads txs) :
    ∀ c : Cache, (∀ p ∈ c.items, ∀ r ∈ reads, r.now ≤ p.2) →
      reads.Pairwise (fun r r' => r'.now ≤ r.now + c.defaultExpiration) →
      (fetchTXs unmarshal c reads).err = none
      ∧ (fetchTXs unmarshal c reads).sent.Sublist txs
      ∧ ∀ h : String,
          ((fetchTXs unmarshal c reads).sent.map Transaction.Hash).count h =
            if h ∈ c.keys then 0 else if h ∈ txs.map Transaction.Hash then 1 else 0 := by
  induction hvalid with
  | nil =>
    intro c _ _
    simp [fetchTXs]
  | @cons r tx reads txs hr _ ih =>
    intro c hlive hwin
    rw [List.pairwise_cons] at hwin
    have hlive_r : ∀ p ∈ c.items, r.now ≤ p.2 :=
      fun p hp => hlive p hp r (List.mem_cons_self _ _)
    have hlive_rest : ∀ p ∈ c.items, ∀ r' ∈ reads, r'.now ≤ p.2 :=
      fun p hp r' hr' => hlive p hp r' (List.mem_cons_of_mem _ hr')
    rw [fetchTXs_cons_valid unmarshal c r reads tx hr,
      Cache.Get_of_live c r.now tx.Hash hlive_r]
    by_cases hmem : tx.Hash ∈ c.keys
    · simp only [hmem, decide_True, if_true]
      obtain ⟨h1, h2, h3⟩ := ih c hlive_rest hwin.2
      refine ⟨h1, h2.trans (List.sublist_cons_self _ _), ?_⟩
      intro h
      rw [h3 h]
      by_cases hh : h ∈ c.keys
      · simp [hh]
      · have hne : h ≠ tx.Hash := fun e => hh (e ▸ hmem)
        simp [hh, hne]
    · simp only [hmem, decide_False, Bool.false_eq_true, if_false]
      have hlive' :
          ∀ p ∈ (c.SetDefault r.now tx.Hash).items, ∀ r' ∈ reads, r'.now ≤ p.2 := by
        intro p hp r' hr'
        simp only [Cache.SetDefault, List.mem_cons] at hp
        rcases hp with hp | hp
        · rw [hp]; exact hwin.1 r' hr'
        · exact hlive_rest p hp r' hr'
      obtain ⟨h1, h2, h3⟩ := ih (c.SetDefault r.now tx.Hash) hlive' hwin.2
      refine ⟨h1, h2.cons₂ tx, ?_⟩
      intro h
      simp only [List.map_cons, List.count_cons, h3 h, Cache.SetDefault_keys, List.mem_cons]
      by_cases hh : h = tx.Hash
      · subst hh
        simp [hmem]
      · have hh' : ¬ tx.Hash = h := fun e => hh e.symm
        simp [hh, hh']

/-- Records with pairwise distinct identifiers that the cache does not hold are
all forwarded, in the order received. -/
theorem fetchTXs_distinct (reads : List Read) (txs : List Transaction)
    (hvalid : List.Forall₂ (Read.carries unmarshal) reads txs) :
    ∀ c : Cache, (txs.map Transaction.Hash).Nodup → (∀ tx ∈ txs, tx.Hash ∉ c.keys) →
      (fetchTXs unmarshal c reads).err = none ∧ (fetchTXs unmarshal c reads).sent = txs := by
  induction hvalid with
  | nil =>
    intro c _ _
    simp [fetchTXs]
  | @cons r tx reads txs hr _ ih =>
    intro c hnd hfresh
    rw [List.map_cons, List.nodup_cons] at hnd
    have hnot : tx.Hash ∉ c.keys := hfresh tx (List.mem_cons_self _ _)
    rw [fetchTXs_cons_valid unmarshal c r reads tx hr,
      Cache.Get_of_not_mem_keys c r.now tx.Hash hnot]
    simp only [Bool.false_eq_true, if_false]
    have hfresh' : ∀ tx' ∈ txs, tx'.Hash ∉ (c.SetDefault r.now tx.Hash).keys := by
      intro tx' htx' hmem
      rw [Cache.SetDefault_keys, List.mem_cons] at hmem
      rcases hmem with hmem | hmem
      · exact hnd.1 (hmem ▸ List.mem_map_of_mem _ htx')
      · exact hfresh tx' (List.mem_cons_of_mem _ htx') hmem
    obtain ⟨h1, h2⟩ := ih (c.SetDefault r.now tx.Hash) hnd.2 hfresh'
    exact ⟨h1, by rw [h2]⟩

/-- Every record the consume loop forwards has passed `Validate`. -/
theorem fetchTXs_sent_valid (reads : List Read) :
    ∀ c : Cache, ∀ tx ∈ (fetchTXs unmarshal c reads).sent,
      Transaction.Validate (some tx) = none := by
  induction reads with
  | nil =>
    intro c tx h
    simp [fetchTXs] at h
  | cons r reads ih =>
    intro c tx h
    rw [fetchTXs] at h
    cases hres : r.res with
    | error e => simp [hres] at h
    | ok msg =>
      simp only [hres] at h
      cases hun : unmarshal msg with
      | error e => simp [hun] at h
      | ok m =>
        simp only [hun] at h
        cases hm : m.tx with
        | none => simp [hm] at h
        | some tx' =>
          simp only [hm] at h
          cases hv : Transaction.Validate (some tx') with
          | some e => simp [hv] at h
          | none =>
            simp only [hv] at h
            by_cases hg : c.Get r.now tx'.Hash = true
            · simp only [hg, if_true] at h
              exact ih c tx h
            · simp only [hg, Bool.false_eq_true, if_false, List.mem_cons] at h
              rcases h with h | h
              · rw [h]; exact hv
              · exact ih _ tx h

end Dedup

/-! ## Claims on the consume loop -/

/-- C2: starting from the empty dedup cache that `Start` creates, on any
sequence of structurally valid envelopes during which no cache entry expires
(no message is handled later than one time-to-live after an earlier one), the
consume loop returns no error, forwards only records of the input, and forwards
each identifier that occurs in the input exactly once, however often it
occurs. -/
theorem fetchTXs_forwards_each_identifier_once
    (unmarshal : List Nat → Except GoError Message) (reads : List Read)
    (txs : List Transaction)
    (hvalid : List.Forall₂ (Read.carries unmarshal) reads txs)
    (hwindow : reads.Pairwise (fun r r' => r'.now ≤ r.now + 1 * Minute)) :
    (fetchTXs unmarshal (Cache.New (1 * Minute) (2 * Minute)) reads).err = none
    ∧ (fetchTXs unmarshal (Cache.New (1 * Minute) (2 * Minute)) reads).sent.Sublist txs
    ∧ ∀ tx ∈ txs,
        ((fetchTXs unmarshal (Cache.New (1 * Minute) (2 * Minute)) reads).sent.map
          Transaction.Hash).count tx.Hash = 1 := by
  obtain ⟨h1, h2, h3⟩ :=
    fetchTXs_dedup_in_window unmarshal reads txs hvalid (Cache.New (1 * Minute) (2 * Minute))
      (by intro p hp; simp [Cache.New] at hp) hwindow
  refine ⟨h1, h2, ?_⟩
  intro tx htx
  rw [h3 tx.Hash]
  have hmem : tx.Hash ∈ txs.map Transaction.Hash := List.mem_map_of_mem _ htx
  simp [Cache.New, Cache.keys, hmem]

/-- C2, the scenario of the specification: the identifiers `0xaaa`, `0xaaa`,
`0xbbb` yield exactly the two records `0xaaa` then `0xbbb`. -/
theorem fetchTXs_forwards_each_identifier_once_witness :
    (fetchTXs sampleUnmarshal (Cache.New (1 * Minute) (2 * Minute))
        [⟨10, .ok [1]⟩, ⟨20, .ok [1]⟩, ⟨30, .ok [2]⟩]).sent
      = [sampleTx "0xaaa" "0xd0e2", sampleTx "0xbbb" "0xd0e3"]
    ∧ ((fetchTXs sampleUnmarshal (Cache.New (1 * Minute) (2 * Minute))
        [⟨10, .ok [1]⟩, ⟨20, .ok [1]⟩, ⟨30, .ok [2]⟩]).err = none
      ∧ (fetchTXs sampleUnmarshal (Cache.New (1 * Minute) (2 * Minute))
          [⟨10, .ok [1]⟩, ⟨20, .ok [1]⟩, ⟨30, .ok [2]⟩]).sent.Sublist
          [sampleTx "0xaaa" "0xd0e2", sampleTx "0xaaa" "0xd0e2", sampleTx "0xbbb" "0xd0e3"]
      ∧ ∀ tx ∈ [sampleTx "0xaaa" "0xd0e2", sampleTx "0xaaa" "0xd0e2",
                  sampleTx "0xbbb" "0xd0e3"],
          ((fetchTXs sampleUnmarshal (Cache.New (1 * Minute) (2 * Minute))
            [⟨10, .ok [1]⟩, ⟨20, .ok [1]⟩, ⟨30, .ok [2]⟩]).sent.map
            Transaction.Hash).count tx.Hash = 1) :=
  ⟨by decide,
   fetchTXs_forwards_each_identifier_once sampleUnmarshal
     [⟨10, .ok [1]⟩, ⟨20, .ok [1]⟩, ⟨30, .ok [2]⟩]
     [sampleTx "0xaaa" "0xd0e2", sampleTx "0xaaa" "0xd0e2", sampleTx "0xbbb" "0xd0e3"]
     (.cons (by decide) (.cons (by decide) (.cons (by decide) .nil)))
     (by decide)⟩

/-- C3: for any sequence of N valid envelopes with pairwise distinct
identifiers, none of which has an entry in the dedup cache, the consume loop
forwards exactly their N records, in the order in which the envelopes were
received. -/
theorem fetchTXs_forwards_in_order
    (unmarshal : List Nat → Except GoError Message) (c : Cache) (reads : List Read)
    (txs : List Transaction)
    (hvalid : List.Forall₂ (Read.carries unmarshal) reads txs)
    (hdistinct : (txs.map Transaction.Hash).Nodup)
    (hfresh : ∀ tx ∈ txs, tx.Hash ∉ c.keys) :
    (fetchTXs unmarshal c reads).sent = txs
    ∧ (fetchTXs unmarshal c reads).sent.length = reads.length
    ∧ (fetchTXs unmarshal c reads).err = none := by
  obtain ⟨h1, h2⟩ := fetchTXs_distinct unmarshal reads txs hvalid c hdistinct hfresh
  exact ⟨h2, by rw [h2]; exact hvalid.length_eq.symm, h1⟩

/-- C3 at two envelopes `0xbbb`, `0xaaa` and a cache that holds another
identifier. -/
theorem fetchTXs_forwards_in_order_witness :
    (fetchTXs sampleUnmarshal
        ((Cache.New (1 * Minute) (2 * Minute)).SetDefault 5 "0xddd")
        [⟨10, .ok [2]⟩, ⟨20, .ok [1]⟩]).sent
      = [sampleTx "0xbbb" "0xd0e3", sampleTx "0xaaa" "0xd0e2"]
    ∧ (fetchTXs sampleUnmarshal
        ((Cache.New (1 * Minute) (2 * Minute)).SetDefault 5 "0xddd")
        [⟨10, .ok [2]⟩, ⟨20, .ok [1]⟩]).sent.length
      = [(⟨10, .ok [2]⟩ : Read), ⟨20, .ok [1]⟩].length
    ∧ (fetchTXs sampleUnmarshal
        ((Cache.New (1 * Minute) (2 * Minute)).SetDefault 5 "0xddd")
        [⟨10, .ok [2]⟩, ⟨20, .ok [1]⟩]).err = none :=
  fetchTXs_forwards_in_order sampleUnmarshal
    ((Cache.New (1 * Minute) (2 * Minute)).SetDefault 5 "0xddd")
    [⟨10, .ok [2]⟩, ⟨20, .ok [1]⟩]
    [sampleTx "0xbbb" "0xd0e3", sampleTx "0xaaa" "0xd0e2"]
    (.cons (by decide) (.cons (by decide) .nil))
    (by decide) (by decide)

/-- C4: the consume loop stops at the first envelope whose record fails
`Validate`. With `pre` the messages handled before it without error, `bad` the
read that delivers the failing record and `post` whatever follows: the loop
returns the validation error wrapped with the message `tx validation failed`
(so that the error text is `tx validation failed: <cause>`), the cache and the
records forwarded are those left by `pre` (the failing record is neither
forwarded nor inserted, nothing of `post` is forwarded). Every record ever
forwarded passes `Validate`, and a single envelope whose record has an empty
nonce yields zero records and one error caused by validation. -/
theorem fetchTXs_stops_at_invalid_record
    (unmarshal : List Nat → Except GoError Message) (c : Cache) :
    (∀ (pre post : List Read) (bad : Read) (tx : Transaction) (e : GoError),
        (fetchTXs unmarshal c pre).err = none →
        bad.record unmarshal = some tx →
        Transaction.Validate (some tx) = some e →
        fetchTXs unmarshal c (pre ++ bad :: post) =
            { cache := (fetchTXs unmarshal c pre).cache,
              sent := (fetchTXs unmarshal c pre).sent,
              err := some (.wrap e "tx validation failed") }
          ∧ (GoError.wrap e "tx validation failed").Error
              = "tx validation failed: " ++ e.Error
          ∧ (GoError.wrap e "tx validation failed").Cause = e)
    ∧ (∀ (reads : List Read), ∀ tx ∈ (fetchTXs unmarshal c reads).sent,
        Transaction.Validate (some tx) = none)
    ∧ (∀ (r : Read) (tx : Transaction),
        r.record unmarshal = some tx → tx.Nonce = "" →
        ∃ e, Transaction.Validate (some tx) = some e
          ∧ fetchTXs unmarshal c [r] =
              { cache := c, sent := [], err := some (.wrap e "tx validation failed") }) := by
  refine ⟨?_, ?_, ?_⟩
  · intro pre post bad tx e hpre hrec hval
    refine ⟨?_, rfl, ?_⟩
    · rw [fetchTXs_append unmarshal c pre (bad :: post) hpre,
        fetchTXs_cons_invalid unmarshal _ bad post tx e hrec hval]
      simp
    · have hcause : e.Cause = e := by
        simp only [Transaction.Validate] at hval
        split_ifs at hval <;> simp at hval <;> rw [← hval] <;> rfl
      simp only [GoError.Cause, hcause]
  · intro reads
    exact fetchTXs_sent_valid unmarshal reads c
  · intro r tx hrec hnonce
    have hne : Transaction.Validate (some tx) ≠ none := by
      intro hnone
      have := ((Validate_eq_none_iff tx).mp hnone).2.2.2.2.2
      exact this hnonce
    cases hv : Transaction.Validate (some tx) with
    | none => exact absurd hv hne
    | some e => exact ⟨e, rfl, fetchTXs_cons_invalid unmarshal c r [] tx e hrec hv⟩

/-- C4 at the stand-in decoder: after the valid envelope `0xaaa`, the envelope
whose record has an empty nonce ends the loop with the wrapped error
`tx validation failed: nonce is unset`; `0xaaa` alone was forwarded and cached
and the valid envelope `0xbbb` that follows is not handled. -/
theorem fetchTXs_stops_at_invalid_record_witness :
    fetchTXs sampleUnmarshal (Cache.New (1 * Minute) (2 * Minute))
        ([⟨10, .ok [1]⟩] ++ ⟨20, .ok [3]⟩ :: [⟨30, .ok [2]⟩]) =
      { cache := (fetchTXs sampleUnmarshal (Cache.New (1 * Minute) (2 * Minute))
                    [⟨10, .ok [1]⟩]).cache,
        sent := (fetchTXs sampleUnmarshal (Cache.New (1 * Minute) (2 * Minute))
                    [⟨10, .ok [1]⟩]).sent,
        err := some (.wrap (.new "nonce is unset") "tx validation failed") }
    ∧ (GoError.wrap (.new "nonce is unset") "tx validation failed").Error
        = "tx validation failed: " ++ (GoError.new "nonce is unset").Error
    ∧ (GoError.wrap (.new "nonce is unset") "tx validation failed").Cause
        = .new "nonce is unset" :=
  (fetchTXs_stops_at_invalid_record sampleUnmarshal
      (Cache.New (1 * Minute) (2 * Minute))).1
    [⟨10, .ok [1]⟩] [⟨30, .ok [2]⟩] ⟨20, .ok [3]⟩ (sampleTx "0xccc" "")
    (.new "nonce is unset") (by decide) (by decide) (by decide)

/-- C5: a decoded envelope in which `params`, `params.result` or
`params.result.txContents` is absent makes the consume loop return the error
`unexpected message format`. With `pre` the messages handled before it without
error and `post` whatever follows, the cache and the records forwarded are
those left by `pre`: the message is not skipped, nothing of it or of `post` is
forwarded, and it leaves the cache unchanged. -/
theorem fetchTXs_rejects_envelope_without_record
    (unmarshal : List Nat → Except GoError Message) (c : Cache)
    (pre post : List Read) (r : Read) (msg : List Nat) (m : Message)
    (hpre : (fetchTXs unmarshal c pre).err = none)
    (hread : r.res = .ok msg) (hdecoded : unmarshal msg = .ok m)
    (habsent : m.Params = none
      ∨ (∃ p, m.Params = some p ∧ p.Result = none)
      ∨ (∃ p res, m.Params = some p ∧ p.Result = some res ∧ res.TX = none)) :
    fetchTXs unmarshal c (pre ++ r :: post) =
      { cache := (fetchTXs unmarshal c pre).cache,
        sent := (fetchTXs unmarshal c pre).sent,
        err := some (.new "unexpected message format") } := by
  have hm : m.tx = none := by
    rcases habsent with h | ⟨p, h, h'⟩ | ⟨p, res, h, h', h''⟩
    · simp [Message.tx, h]
    · simp [Message.tx, h, h']
    · simp [Message.tx, h, h', h'']
  rw [fetchTXs_append unmarshal c pre (r :: post) hpre,
    fetchTXs_cons_missing unmarshal _ r post msg m hread hdecoded hm]
  simp

/-- C5 at the stand-in decoder: after the valid envelope `0xaaa`, an envelope
without `result` ends the loop; the valid envelope `0xbbb` behind it is not
handled. -/
theorem fetchTXs_rejects_envelope_without_record_witness :
    fetchTXs sampleUnmarshal (Cache.New (1 * Minute) (2 * Minute))
        ([⟨10, .ok [1]⟩] ++ ⟨20, .ok [5]⟩ :: [⟨30, .ok [2]⟩]) =
      { cache := (fetchTXs sampleUnmarshal (Cache.New (1 * Minute) (2 * Minute))
                    [⟨10, .ok [1]⟩]).cache,
        sent := (fetchTXs sampleUnmarshal (Cache.New (1 * Minute) (2 * Minute))
                    [⟨10, .ok [1]⟩]).sent,
        err := some (.new "unexpected message format") } :=
  fetchTXs_rejects_envelope_without_record sampleUnmarshal
    (Cache.New (1 * Minute) (2 * Minute)) [⟨10, .ok [1]⟩] [⟨30, .ok [2]⟩] ⟨20, .ok [5]⟩
    [5]
    { Version := "2.0", Method := "subscribe",
      Params := some { Subscription := "c294f047", Result := none } }
    (by decide) rfl rfl
    (Or.inr (Or.inl ⟨{ Subscription := "c294f047", Result := none }, rfl, rfl⟩))

section ReconnectLoop

/-! ## Lemmas on the reconnect loop -/

variable (unmarshal : List Nat → Except GoError Message)

/-- The events of `connect`, by outcome. -/
theorem connect_cases (su : Setup) (a : Attempt) :
    (connect su a = ([.dial su.url su.header su.dialer.TLSClientConfig], a.dial)
        ∧ a.dial ≠ none)
    ∨ (connect su a = ([.dial su.url su.header su.dialer.TLSClientConfig,
          .write subscribeRequest, .close], (connect su a).2) ∧ (connect su a).2 ≠ none)
    ∨ (connect su a = ([.dial su.url su.header su.dialer.TLSClientConfig,
          .write subscribeRequest, .read, .close], (connect su a).2)
        ∧ (connect su a).2 ≠ none)
    ∨ connect su a = ([.dial su.url su.header su.dialer.TLSClientConfig,
          .write subscribeRequest, .read], none) := by
  unfold connect
  cases hd : a.dial with
  | some e => left; simp
  | none =>
    cases hw : a.write with
    | some e => right; left; simp
    | none =>
      cases hr : a.resp with
      | error e => right; right; left; simp
      | ok msg =>
        by_cases hm : bytesContains msg errorMarker = true
        · right; right; left; simp [hm]
        · right; right; right; simp [hm]

theorem durations_append (xs ys : List Event) :
    durations (xs ++ ys) = durations xs ++ durations ys := by
  simp [durations, List.filterMap_append]

theorem connect_durations (su : Setup) (a : Attempt) : durations (connect su a).1 = [] := by
  rcases connect_cases su a with h | h | h | h
  · rw [h.1]; rfl
  · rw [h.1]; rfl
  · rw [h.1]; rfl
  · rw [h]; rfl

theorem durations_sends (txs : List Transaction) : durations (txs.map Event.send) = [] := by
  induction txs with
  | nil => rfl
  | cons tx txs _ => simp [durations, Event.delay]

/-- An iteration whose connect fails: the error is reported when a callback is
set, a delay is drawn and slept, and nothing else changes. -/
theorem iteration_connect_failed (s : Stream) (su : Setup) (st : LoopState) (a : Attempt)
    (err : GoError) (h : (connect su a).2 = some err) :
    Start.iteration unmarshal s su st a =
      ((connect su a).1 ++ (if s.onError then [Event.onError err] else [])
          ++ [.duration st.bo.Duration.1, .sleep st.bo.Duration.1],
        { st with bo := st.bo.Duration.2 }, true) := by
  unfold Start.iteration
  rcases hc : connect su a with ⟨evs, _ | e⟩
  · rw [hc] at h; simp at h
  · rw [hc] at h
    simp only [Option.some.injEq] at h
    subst h
    rfl

/-- An iteration whose connect succeeds and whose session ends with an error. -/
theorem iteration_session_failed (s : Stream) (su : Setup) (st : LoopState) (a : Attempt)
    (err : GoError) (h : (connect su a).2 = none)
    (hs : (fetchTXs unmarshal st.cache a.session).err = some err) :
    Start.iteration unmarshal s su st a =
      ((connect su a).1 ++ [.reset] ++ (Start.called s st.first).1
          ++ (fetchTXs unmarshal st.cache a.session).sent.map Event.send
          ++ [.close] ++ (if s.onError then [Event.onError err] else []),
        { first := (Start.called s st.first).2, bo := st.bo.Reset,
          cache := (fetchTXs unmarshal st.cache a.session).cache }, true) := by
  unfold Start.iteration
  rcases hc : connect su a with ⟨evs, _ | e⟩
  · simp only [hs]
    unfold Start.called
    split_ifs <;> rfl
  · rw [hc] at h; simp at h

/-- An iteration whose connect succeeds and whose session is still open. -/
theorem iteration_session_open (s : Stream) (su : Setup) (st : LoopState) (a : Attempt)
    (h : (connect su a).2 = none)
    (hs : (fetchTXs unmarshal st.cache a.session).err = none) :
    Start.iteration unmarshal s su st a =
      ((connect su a).1 ++ [.reset] ++ (Start.called s st.first).1
          ++ (fetchTXs unmarshal st.cache a.session).sent.map Event.send,
        { first := (Start.called s st.first).2, bo := st.bo.Reset,
          cache := (fetchTXs unmarshal st.cache a.session).cache }, false) := by
  unfold Start.iteration
  rcases hc : connect su a with ⟨evs, _ | e⟩
  · simp only [hs]
    unfold Start.called
    split_ifs <;> rfl
  · rw [hc] at h; simp at h

theorem loop_cons_continue (s : Stream) (su : Setup) (st st' : LoopState) (a : Attempt)
    (rest : List Attempt) (evs : List Event)
    (h : Start.iteration unmarshal s su st a = (evs, st', true)) :
    Start.loop unmarshal s su st (a :: rest) =
      (evs ++ (Start.loop unmarshal s su st' rest).1,
        (Start.loop unmarshal s su st' rest).2) := by
  rw [Start.loop, h]

theorem loop_cons_stop (s : Stream) (su : Setup) (st st' : LoopState) (a : Attempt)
    (rest : List Attempt) (evs : List Event)
    (h : Start.iteration unmarshal s su st a = (evs, st', false)) :
    Start.loop unmarshal s su st (a :: rest) = (evs, st') := by
  rw [Start.loop, h]

/-- The outcome of an iteration is one of the three above. -/
theorem iteration_cases (su : Setup) (st : LoopState) (a : Attempt) :
    (∃ err, (connect su a).2 = some err)
    ∨ ((connect su a).2 = none
        ∧ ∃ err, (fetchTXs unmarshal st.cache a.session).err = some err)
    ∨ ((connect su a).2 = none ∧ (fetchTXs unmarshal st.cache a.session).err = none) := by
  cases hc : (connect su a).2 with
  | some err => exact Or.inl ⟨err, rfl⟩
  | none =>
    cases hs : (fetchTXs unmarshal st.cache a.session).err with
    | some err => exact Or.inr (Or.inl ⟨rfl, err, rfl⟩)
    | none => exact Or.inr (Or.inr ⟨rfl, rfl⟩)

theorem connect_dial_mem (su : Setup) (a : Attempt) (url : String)
    (header : List (String × String)) (tls : Option TLSConfig)
    (h : Event.dial url header tls ∈ (connect su a).1) :
    url = su.url ∧ header = su.header ∧ tls = su.dialer.TLSClientConfig := by
  rcases connect_cases su a with hc | hc | hc | hc
  · rw [hc.1] at h; simpa using h
  · rw [hc.1] at h; simpa using h
  · rw [hc.1] at h; simpa using h
  · rw [hc] at h; simpa using h

theorem called_dial_not_mem (s : Stream) (first : Bool) (url : String)
    (header : List (String × String)) (tls : Option TLSConfig) :
    Event.dial url header tls ∉ (Start.called s first).1 := by
  unfold Start.called
  split_ifs <;> simp

/-- Every dial of an iteration uses the endpoint, the header and the TLS
configuration that `Start` prepared. -/
theorem iteration_dial_mem (s : Stream) (su : Setup) (st : LoopState) (a : Attempt)
    (url : String) (header : List (String × String)) (tls : Option TLSConfig)
    (h : Event.dial url header tls ∈ (Start.iteration unmarshal s su st a).1) :
    url = su.url ∧ header = su.header ∧ tls = su.dialer.TLSClientConfig := by
  rcases iteration_cases unmarshal su st a with ⟨err, hc⟩ | ⟨hc, err, hs⟩ | ⟨hc, hs⟩
  · rw [iteration_connect_failed unmarshal s su st a err hc] at h
    simp only [List.mem_append, List.mem_cons, List.mem_singleton] at h
    rcases h with (h | h) | h
    · exact connect_dial_mem su a url header tls h
    · split_ifs at h <;> simp at h
    · simp at h
  · rw [iteration_session_failed unmarshal s su st a err hc hs] at h
    simp only [List.mem_append, List.mem_cons, List.mem_singleton, List.mem_map] at h
    rcases h with ((((h | h) | h) | h) | h) | h
    · exact connect_dial_mem su a url header tls h
    · simp at h
    · exact absurd h (called_dial_not_mem s st.first url header tls)
    · obtain ⟨tx, _, htx⟩ := h; simp at htx
    · simp at h
    · split_ifs at h <;> simp at h
  · rw [iteration_session_open unmarshal s su st a hc hs] at h
    simp only [List.mem_append, List.mem_cons, List.mem_singleton, List.mem_map] at h
    rcases h with ((h | h) | h) | h
    · exact connect_dial_mem su a url header tls h
    · simp at h
    · exact absurd h (called_dial_not_mem s st.first url header tls)
    · obtain ⟨tx, _, htx⟩ := h; simp at htx

theorem loop_dial_mem (s : Stream) (su : Setup) (script : List Attempt) :
    ∀ (st : LoopState) (url : String) (header : List (String × String))
      (tls : Option TLSConfig),
      Event.dial url header tls ∈ (Start.loop unmarshal s su st script).1 →
      url = su.url ∧ header = su.header ∧ tls = su.dialer.TLSClientConfig := by
  induction script with
  | nil =>
    intro st url header tls h
    simp [Start.loop] at h
  | cons a rest ih =>
    intro st url header tls h
    rcases hi : Start.iteration unmarshal s su st a with ⟨evs, st', go⟩
    have hmem := iteration_dial_mem unmarshal s su st a url header tls
    rw [hi] at hmem
    cases go with
    | true =>
      rw [loop_cons_continue unmarshal s su st st' a rest evs hi] at h
      simp only [List.mem_append] at h
      rcases h with h | h
      · exact hmem h
      · exact ih st' url header tls h
    | false =>
      rw [loop_cons_stop unmarshal s su st st' a rest evs hi] at h
      exact hmem h

end ReconnectLoop

/-! ## Claims on `Start` -/

/-- C6: authentication selection in `Start`. With a certificate set,
certificate authentication is selected whatever the auth token is: the TLS
client configuration carries the certificate, no Authorization header is set,
and the endpoint is the explicit URL if non-empty, else `EnterpriseCloudWS`.
With no certificate and a non-empty auth token the only header is
Authorization, equal to the token, the dialer is left as found, and the
endpoint is the explicit URL if non-empty, else `CloudWS`. With neither,
`Start` returns a nil channel and the error `no authentication set`, and the
connect loop is not started. Whenever `Start` succeeds, every dial of the
loop uses the endpoint, header and TLS configuration so selected. -/
theorem Start_selects_authentication
    (unmarshal : List Nat → Except GoError Message) (s : Stream) (dialer : Dialer)
    (script : List Attempt) :
    (∀ cert, s.cert = some cert →
      ∃ su, Start.prepare s dialer = .ok su
        ∧ su.dialer.TLSClientConfig
            = some { Certificates := [cert], InsecureSkipVerify := s.insecure }
        ∧ su.header = []
        ∧ su.url = (if s.url = "" then EnterpriseCloudWS else s.url))
    ∧ (s.cert = none → s.authHeader ≠ "" →
      ∃ su, Start.prepare s dialer = .ok su
        ∧ su.dialer = dialer
        ∧ su.header = [("Authorization", s.authHeader)]
        ∧ su.url = (if s.url = "" then CloudWS else s.url))
    ∧ (s.cert = none → s.authHeader = "" →
      Start unmarshal s dialer script
        = { txC := none, err := some (.new "no authentication set"), trace := [] })
    ∧ (∀ su, Start.prepare s dialer = .ok su →
      (Start unmarshal s dialer script).txC = some su.txC
        ∧ (Start unmarshal s dialer script).err = none
        ∧ ∀ url header tls,
            Event.dial url header tls ∈ (Start unmarshal s dialer script).trace →
            url = su.url ∧ header = su.header ∧ tls = su.dialer.TLSClientConfig) := by
  refine ⟨?_, ?_, ?_, ?_⟩
  · intro cert hcert
    simp [Start.prepare, hcert]
  · intro hcert hauth
    simp [Start.prepare, hcert, hauth]
  · intro hcert hauth
    simp [Start, Start.prepare, hcert, hauth]
  · intro su hsu
    simp only [Start, hsu, true_and]
    intro url header tls h
    exact loop_dial_mem unmarshal s su script _ url header tls h

/-- C6 at a stream with both a certificate and an account token, no URL and
the insecure flag: the dial goes to `EnterpriseCloudWS` with the certificate in
the TLS configuration and no header. -/
theorem Start_selects_authentication_witness :
    (Start sampleUnmarshal
        { sampleStream with cert := some ⟨7⟩, insecure := true } ⟨none⟩
        [⟨some (.new "connection refused"), none, .ok [], []⟩]).trace
      = [.dial EnterpriseCloudWS []
            (some { Certificates := [⟨7⟩], InsecureSkipVerify := true }),
         .onError (.new "connection refused"), .duration 100000000, .sleep 100000000]
    ∧ ∃ su, Start.prepare { sampleStream with cert := some ⟨7⟩, insecure := true } ⟨none⟩
          = .ok su
        ∧ su.dialer.TLSClientConfig
            = some { Certificates := [⟨7⟩], InsecureSkipVerify := true }
        ∧ su.header = []
        ∧ su.url = (if ({ sampleStream with cert := some ⟨7⟩, insecure := true } : Stream).url
                        = "" then EnterpriseCloudWS
                    else ({ sampleStream with cert := some ⟨7⟩, insecure := true } : Stream).url) :=
  ⟨by decide,
   (Start_selects_authentication sampleUnmarshal
      { sampleStream with cert := some ⟨7⟩, insecure := true } ⟨none⟩ []).1 ⟨7⟩ rfl⟩

section Backoff

variable (unmarshal : List Nat → Except GoError Message)

theorem connect_head (su : Setup) (a : Attempt) :
    ∃ tail, (connect su a).1
      = Event.dial su.url su.header su.dialer.TLSClientConfig :: tail := by
  rcases connect_cases su a with h | h | h | h
  · rw [h.1]; exact ⟨_, rfl⟩
  · rw [h.1]; exact ⟨_, rfl⟩
  · rw [h.1]; exact ⟨_, rfl⟩
  · rw [h]; exact ⟨_, rfl⟩

theorem iteration_head (s : Stream) (su : Setup) (st : LoopState) (a : Attempt) :
    ∃ tail, (Start.iteration unmarshal s su st a).1
      = Event.dial su.url su.header su.dialer.TLSClientConfig :: tail := by
  obtain ⟨t, ht⟩ := connect_head su a
  rcases iteration_cases unmarshal su st a with ⟨err, hc⟩ | ⟨hc, err, hs⟩ | ⟨hc, hs⟩
  · rw [iteration_connect_failed unmarshal s su st a err hc, ht]
    exact ⟨_, rfl⟩
  · rw [iteration_session_failed unmarshal s su st a err hc hs, ht]
    exact ⟨_, rfl⟩
  · rw [iteration_session_open unmarshal s su st a hc hs, ht]
    exact ⟨_, rfl⟩

theorem loop_head (s : Stream) (su : Setup) (st : LoopState) (a : Attempt)
    (rest : List Attempt) :
    ∃ tail, (Start.loop unmarshal s su st (a :: rest)).1
      = Event.dial su.url su.header su.dialer.TLSClientConfig :: tail := by
  obtain ⟨t, ht⟩ := iteration_head unmarshal s su st a
  rcases hi : Start.iteration unmarshal s su st a with ⟨evs, st', go⟩
  rw [hi] at ht
  simp only at ht
  cases go with
  | true =>
    rw [loop_cons_continue unmarshal s su st st' a rest evs hi, ht]
    exact ⟨_, rfl⟩
  | false =>
    rw [loop_cons_stop unmarshal s su st st' a rest evs hi, ht]
    exact ⟨_, rfl⟩

theorem called_durations (s : Stream) (first : Bool) :
    durations (Start.called s first).1 = [] := by
  unfold Start.called
  split_ifs <;> rfl

theorem reported_durations (b : Bool) (err : GoError) :
    durations (if b then [Event.onError err] else []) = [] := by
  cases b <;> rfl

/-- An iteration whose connect succeeds draws no delay. -/
theorem iteration_connected_durations (s : Stream) (su : Setup) (st : LoopState)
    (a : Attempt) (h : (connect su a).2 = none) :
    durations (Start.iteration unmarshal s su st a).1 = [] := by
  cases hs : (fetchTXs unmarshal st.cache a.session).err with
  | some err =>
    rw [iteration_session_failed unmarshal s su st a err h hs]
    simp only [durations_append, connect_durations, called_durations, durations_sends,
      reported_durations, List.append_nil]
    rfl
  | none =>
    rw [iteration_session_open unmarshal s su st a h hs]
    simp only [durations_append, connect_durations, called_durations, durations_sends,
      List.append_nil]
    rfl

/-- An iteration whose connect fails draws one delay, the next of the backoff. -/
theorem iteration_failed_durations (s : Stream) (su : Setup) (st : LoopState)
    (a : Attempt) (h : (connect su a).2 ≠ none) :
    durations (Start.iteration unmarshal s su st a).1
        = [min (st.bo.effMin * st.bo.effFactor ^ st.bo.attempt) st.bo.effMax]
    ∧ (Start.iteration unmarshal s su st a).2
        = ({ st with bo := { st.bo with attempt := st.bo.attempt + 1 } }, true) := by
  cases hc : (connect su a).2 with
  | none => exact absurd hc h
  | some err =>
    rw [iteration_connect_failed unmarshal s su st a err hc]
    simp only [durations_append, connect_durations, reported_durations, List.nil_append]
    exact ⟨rfl, rfl⟩

/-- A run of failed connects draws the delays of consecutive attempts. -/
theorem loop_failures (s : Stream) (su : Setup) (fails : List Attempt) :
    ∀ st : LoopState, (∀ a ∈ fails, (connect su a).2 ≠ none) →
      durations (Start.loop unmarshal s su st fails).1
          = (List.range fails.length).map
              (fun k => min (st.bo.effMin * st.bo.effFactor ^ (st.bo.attempt + k))
                              st.bo.effMax)
      ∧ (Start.loop unmarshal s su st fails).2
          = { st with bo := { st.bo with attempt := st.bo.attempt + fails.length } } := by
  induction fails with
  | nil =>
    intro st _
    simp [Start.loop, durations]
  | cons a rest ih =>
    intro st h
    obtain ⟨hd, hst⟩ :=
      iteration_failed_durations unmarshal s su st a (h a (List.mem_cons_self _ _))
    rcases hi : Start.iteration unmarshal s su st a with ⟨evs, st', go⟩
    rw [hi] at hd hst
    simp only [Prod.mk.injEq] at hst
    obtain ⟨hst', hgo⟩ := hst
    subst hgo
    rw [loop_cons_continue unmarshal s su st st' a rest evs hi]
    obtain ⟨ih1, ih2⟩ := ih st' (fun b hb => h b (List.mem_cons_of_mem _ hb))
    simp only [durations_append, hd, ih1, ih2]
    subst hst'
    constructor
    · simp only [List.length_cons, List.range_succ_eq_map, List.map_cons, List.map_map,
        Nat.add_zero, List.singleton_append, List.cons.injEq, true_and]
      apply List.map_congr_left
      intro k _
      simp only [Function.comp, Nat.succ_eq_add_one]
      show min (st.bo.effMin * st.bo.effFactor ^ (st.bo.attempt + 1 + k)) st.bo.effMax
        = min (st.bo.effMin * st.bo.effFactor ^ (st.bo.attempt + (k + 1))) st.bo.effMax
      rw [Nat.add_assoc, Nat.add_comm 1 k]
    · simp only [List.length_cons]
      congr 2
      omega

/-- The parameters of the backoff are never changed by the loop. -/
theorem loop_backoff_parameters (s : Stream) (su : Setup) (script : List Attempt) :
    ∀ st : LoopState,
      (Start.loop unmarshal s su st script).2.bo.Min = st.bo.Min
      ∧ (Start.loop unmarshal s su st script).2.bo.Max = st.bo.Max
      ∧ (Start.loop unmarshal s su st script).2.bo.Factor = st.bo.Factor
      ∧ (Start.loop unmarshal s su st script).2.bo.Jitter = st.bo.Jitter := by
  induction script with
  | nil =>
    intro st
    simp [Start.loop]
  | cons a rest ih =>
    intro st
    rcases iteration_cases unmarshal su st a with ⟨err, hc⟩ | ⟨hc, err, hs⟩ | ⟨hc, hs⟩
    · rw [loop_cons_continue unmarshal s su st _ a rest _
        (iteration_connect_failed unmarshal s su st a err hc)]
      exact ih _
    · rw [loop_cons_continue unmarshal s su st _ a rest _
        (iteration_session_failed unmarshal s su st a err hc hs)]
      exact ih _
    · rw [loop_cons_stop unmarshal s su st _ a rest _
        (iteration_session_open unmarshal s su st a hc hs)]
      exact ⟨rfl, rfl, rfl, rfl⟩

/-- A run of failed connects is gone through, and the loop goes on with what
follows. -/
theorem loop_failures_append (s : Stream) (su : Setup) (fails rest : List Attempt) :
    ∀ st : LoopState, (∀ a ∈ fails, (connect su a).2 ≠ none) →
      (Start.loop unmarshal s su st (fails ++ rest)).1
        = (Start.loop unmarshal s su st fails).1
            ++ (Start.loop unmarshal s su (Start.loop unmarshal s su st fails).2 rest).1 := by
  induction fails with
  | nil =>
    intro st _
    simp [Start.loop]
  | cons a fails ih =>
    intro st h
    cases hc : (connect su a).2 with
    | none => exact absurd hc (h a (List.mem_cons_self _ _))
    | some err =>
      have hi := iteration_connect_failed unmarshal s su st a err hc
      rw [List.cons_append, loop_cons_continue unmarshal s su st _ a (fails ++ rest) _ hi,
        loop_cons_continue unmarshal s su st _ a fails _ hi]
      simp only [List.append_assoc]
      rw [ih _ (fun b hb => h b (List.mem_cons_of_mem _ hb))]

end Backoff

section Callbacks

variable (unmarshal : List Nat → Except GoError Message)

theorem connect_onReconnect_not_mem (su : Setup) (a : Attempt) :
    Event.onReconnect ∉ (connect su a).1 := by
  rcases connect_cases su a with h | h | h | h
  · rw [h.1]; simp
  · rw [h.1]; simp
  · rw [h.1]; simp
  · rw [h]; simp

theorem called_without_connect_callback (s : Stream) (h : s.onConnect = false) :
    Start.called s true = ([], true) := by
  simp [Start.called, h]

/-- Without a connect callback, `first` is never cleared: whatever the
environment does, the loop never calls the reconnect callback. -/
theorem loop_without_connect_callback (s : Stream) (su : Setup)
    (h : s.onConnect = false) (script : List Attempt) :
    ∀ st : LoopState, st.first = true →
      Event.onReconnect ∉ (Start.loop unmarshal s su st script).1
      ∧ (Start.loop unmarshal s su st script).2.first = true := by
  induction script with
  | nil =>
    intro st hfirst
    simp [Start.loop, hfirst]
  | cons a rest ih =>
    intro st hfirst
    have hconn := connect_onReconnect_not_mem su a
    rcases iteration_cases unmarshal su st a with ⟨err, hc⟩ | ⟨hc, err, hs⟩ | ⟨hc, hs⟩
    · rw [loop_cons_continue unmarshal s su st _ a rest _
        (iteration_connect_failed unmarshal s su st a err hc)]
      obtain ⟨ih1, ih2⟩ := ih { st with bo := st.bo.Duration.2 } hfirst
      refine ⟨?_, ih2⟩
      simp only [List.mem_append, List.mem_cons, List.mem_singleton, not_or]
      refine ⟨⟨⟨hconn, ?_⟩, by simp⟩, ih1⟩
      split_ifs <;> simp
    · rw [loop_cons_continue unmarshal s su st _ a rest _
        (iteration_session_failed unmarshal s su st a err hc hs)]
      rw [hfirst, called_without_connect_callback s h]
      obtain ⟨ih1, ih2⟩ := ih
        { first := true, bo := st.bo.Reset,
          cache := (fetchTXs unmarshal st.cache a.session).cache } rfl
      refine ⟨?_, ih2⟩
      simp only [List.mem_append, List.mem_cons, List.mem_singleton, List.mem_map, not_or]
      refine ⟨⟨⟨⟨⟨⟨hconn, by simp⟩, by simp⟩, by simp⟩, by simp⟩, ?_⟩, ih1⟩
      split_ifs <;> simp
    · rw [loop_cons_stop unmarshal s su st _ a rest _
        (iteration_session_open unmarshal s su st a hc hs)]
      rw [hfirst, called_without_connect_callback s h]
      refine ⟨?_, rfl⟩
      simp only [List.mem_append, List.mem_cons, List.mem_singleton, List.mem_map, not_or]
      exact ⟨⟨⟨hconn, by simp⟩, by simp⟩, by simp⟩

end Callbacks

/-- C7, as stated, fails: a session that ends with a read error is followed
by the next connect attempt with no backoff delay drawn in between. In this run
the first connect succeeds, the session forwards `0xaaa` and then ends with a
read error, and the second connect succeeds; `close` and the error callback
are directly followed by the next dial, and no delay is drawn at all. -/
theorem session_failure_draws_no_delay_counterexample :
    (Start sampleUnmarshal sampleStream ⟨none⟩
        [⟨none, none, .ok [123, 125],
            [⟨10, .ok [1]⟩, ⟨20, .error (.new "unexpected EOF")⟩]⟩,
         ⟨none, none, .ok [123, 125], []⟩]).trace
      = [.dial CloudWS [("Authorization", "YWNjb3VudDpzZWNyZXQ=")] none,
         .write subscribeRequest, .read, .reset, .onConnect,
         .send (sampleTx "0xaaa" "0xd0e2"),
         .close, .onError (.new "unexpected EOF"),
         .dial CloudWS [("Authorization", "YWNjb3VudDpzZWNyZXQ=")] none,
         .write subscribeRequest, .read, .reset, .onReconnect]
    ∧ durations (Start sampleUnmarshal sampleStream ⟨none⟩
        [⟨none, none, .ok [123, 125],
            [⟨10, .ok [1]⟩, ⟨20, .error (.new "unexpected EOF")⟩]⟩,
         ⟨none, none, .ok [123, 125], []⟩]).trace = [] := by
  decide

/-- C7, amended: when a session ends with an error (read, decode, missing
record or validation), the iteration ends by closing the transport and, when
an error callback is set, calling it with the causing error; no backoff delay
is drawn in that iteration, the backoff is in its reset state, and the next
connect attempt (its dial) follows directly. A delay is drawn only by an
iteration whose connect failed. -/
theorem session_failure_reconnects_without_delay
    (unmarshal : List Nat → Except GoError Message) (s : Stream) (su : Setup)
    (st : LoopState) (a next : Attempt) (rest : List Attempt) (err : GoError)
    (hconn : (connect su a).2 = none)
    (hfail : (fetchTXs unmarshal st.cache a.session).err = some err) :
    (∃ evs, (Start.iteration unmarshal s su st a).1
        = evs ++ [.close] ++ (if s.onError then [Event.onError err] else []))
    ∧ durations (Start.iteration unmarshal s su st a).1 = []
    ∧ (Start.iteration unmarshal s su st a).2.1.bo = st.bo.Reset
    ∧ (∃ tail, (Start.loop unmarshal s su st (a :: next :: rest)).1
        = (Start.iteration unmarshal s su st a).1
            ++ Event.dial su.url su.header su.dialer.TLSClientConfig :: tail)
    ∧ (∀ (st' : LoopState) (b : Attempt),
        durations (Start.iteration unmarshal s su st' b).1 ≠ [] →
        (connect su b).2 ≠ none) := by
  refine ⟨?_, iteration_connected_durations unmarshal s su st a hconn, ?_, ?_, ?_⟩
  · rw [iteration_session_failed unmarshal s su st a err hconn hfail]
    exact ⟨_, rfl⟩
  · rw [iteration_session_failed unmarshal s su st a err hconn hfail]
  · have hi := iteration_session_failed unmarshal s su st a err hconn hfail
    obtain ⟨tail, ht⟩ := loop_head unmarshal s su
      { first := (Start.called s st.first).2, bo := st.bo.Reset,
        cache := (fetchTXs unmarshal st.cache a.session).cache } next rest
    rw [loop_cons_continue unmarshal s su st _ a (next :: rest) _ hi, hi, ht]
    exact ⟨tail, rfl⟩
  · intro st' b hne hc
    exact hne (iteration_connected_durations unmarshal s su st' b hc)

/-- C7 amended, at the run of the counterexample. -/
theorem session_failure_reconnects_without_delay_witness :
    (∃ evs, (Start.iteration sampleUnmarshal sampleStream
          ⟨⟨none⟩, CloudWS, [("Authorization", "YWNjb3VudDpzZWNyZXQ=")], ⟨100⟩,
            ⟨0, 5 * Second, 2, true, 0⟩, Cache.New (1 * Minute) (2 * Minute)⟩
          ⟨true, ⟨0, 5 * Second, 2, true, 3⟩, Cache.New (1 * Minute) (2 * Minute)⟩
          ⟨none, none, .ok [123, 125],
            [⟨10, .ok [1]⟩, ⟨20, .error (.new "unexpected EOF")⟩]⟩).1
        = evs ++ [.close]
            ++ (if sampleStream.onError then [Event.onError (.new "unexpected EOF")] else []))
    ∧ durations (Start.iteration sampleUnmarshal sampleStream
          ⟨⟨none⟩, CloudWS, [("Authorization", "YWNjb3VudDpzZWNyZXQ=")], ⟨100⟩,
            ⟨0, 5 * Second, 2, true, 0⟩, Cache.New (1 * Minute) (2 * Minute)⟩
          ⟨true, ⟨0, 5 * Second, 2, true, 3⟩, Cache.New (1 * Minute) (2 * Minute)⟩
          ⟨none, none, .ok [123, 125],
            [⟨10, .ok [1]⟩, ⟨20, .error (.new "unexpected EOF")⟩]⟩).1 = [] :=
  have h := session_failure_reconnects_without_delay sampleUnmarshal sampleStream
    ⟨⟨none⟩, CloudWS, [("Authorization", "YWNjb3VudDpzZWNyZXQ=")], ⟨100⟩,
      ⟨0, 5 * Second, 2, true, 0⟩, Cache.New (1 * Minute) (2 * Minute)⟩
    ⟨true, ⟨0, 5 * Second, 2, true, 3⟩, Cache.New (1 * Minute) (2 * Minute)⟩
    ⟨none, none, .ok [123, 125], [⟨10, .ok [1]⟩, ⟨20, .error (.new "unexpected EOF")⟩]⟩
    ⟨none, none, .ok [123, 125], []⟩ [] (.new "unexpected EOF") (by decide) (by decide)
  ⟨h.1, h.2.1⟩

/-- C8, the code at the failing input: with a reconnect callback but no connect
callback set, two successful connects in a row (the first session ends with a
read error) call no callback at all: `first` stays true, so the second
successful connect does not call the reconnect callback. With the connect
callback set, the same run calls `onConnect` and then `onReconnect`. -/
theorem reconnect_callback_skipped_without_connect_callback :
    (Start sampleUnmarshal { sampleStream with onConnect := false } ⟨none⟩
        [⟨none, none, .ok [123, 125], [⟨10, .error (.new "unexpected EOF")⟩]⟩,
         ⟨none, none, .ok [123, 125], [⟨20, .error (.new "unexpected EOF")⟩]⟩]).trace
      = [.dial CloudWS [("Authorization", "YWNjb3VudDpzZWNyZXQ=")] none,
         .write subscribeRequest, .read, .reset,
         .close, .onError (.new "unexpected EOF"),
         .dial CloudWS [("Authorization", "YWNjb3VudDpzZWNyZXQ=")] none,
         .write subscribeRequest, .read, .reset,
         .close, .onError (.new "unexpected EOF")]
    ∧ Event.onReconnect ∉
        (Start sampleUnmarshal { sampleStream with onConnect := false } ⟨none⟩
          [⟨none, none, .ok [123, 125], [⟨10, .error (.new "unexpected EOF")⟩]⟩,
           ⟨none, none, .ok [123, 125], [⟨20, .error (.new "unexpected EOF")⟩]⟩]).trace
    ∧ (Start sampleUnmarshal sampleStream ⟨none⟩
        [⟨none, none, .ok [123, 125], [⟨10, .error (.new "unexpected EOF")⟩]⟩,
         ⟨none, none, .ok [123, 125], [⟨20, .error (.new "unexpected EOF")⟩]⟩]).trace
      = [.dial CloudWS [("Authorization", "YWNjb3VudDpzZWNyZXQ=")] none,
         .write subscribeRequest, .read, .reset, .onConnect,
         .close, .onError (.new "unexpected EOF"),
         .dial CloudWS [("Authorization", "YWNjb3VudDpzZWNyZXQ=")] none,
         .write subscribeRequest, .read, .reset, .onReconnect,
         .close, .onError (.new "unexpected EOF")] := by
  decide

/-- C9, as stated, fails in two ways. A configured backoff from which two
delays were already drawn (`Min = 3`, `Max = 20`, `Factor = 2`) gives, after
the first and second failed connect of the run, the delays 12 and 20, where
the formula `min(min_delay * factor^(N-1), max_delay)` gives 3 and 6: `Start`
runs the backoff as it arrives and resets it only on a successful connect. And
with the default backoff (`Min = 0`, `Max = 5s`, `Factor = 2`) three failed
connects draw 100ms, 200ms and 400ms, where the formula with `min_delay = 0`
gives 0 each time. -/
theorem backoff_delay_formula_counterexample :
    (durations (Start sampleUnmarshal
        { sampleStream with backoff := some ⟨3, 20, 2, false, 2⟩ } ⟨none⟩
        [⟨some (.new "refused"), none, .ok [], []⟩,
         ⟨some (.new "refused"), none, .ok [], []⟩]).trace = [12, 20]
      ∧ durations (Start sampleUnmarshal
        { sampleStream with backoff := some ⟨3, 20, 2, false, 2⟩ } ⟨none⟩
        [⟨some (.new "refused"), none, .ok [], []⟩,
         ⟨some (.new "refused"), none, .ok [], []⟩]).trace
        ≠ (List.range 2).map (fun k => min (3 * 2 ^ k) 20))
    ∧ (durations (Start sampleUnmarshal sampleStream ⟨none⟩
        [⟨some (.new "refused"), none, .ok [], []⟩,
         ⟨some (.new "refused"), none, .ok [], []⟩,
         ⟨some (.new "refused"), none, .ok [], []⟩]).trace
        = [100 * Millisecond, 200 * Millisecond, 400 * Millisecond]
      ∧ durations (Start sampleUnmarshal sampleStream ⟨none⟩
        [⟨some (.new "refused"), none, .ok [], []⟩,
         ⟨some (.new "refused"), none, .ok [], []⟩,
         ⟨some (.new "refused"), none, .ok [], []⟩]).trace
        ≠ (List.range 3).map (fun k => min (BackoffMin * BackoffFactor ^ k) BackoffMax)) := by
  decide

/-- C9, amended: backoff in the reconnect loop of `Start`, with jitter left
out. `Start` runs the configured backoff as it arrives, or, when none is
configured, a fresh one with `Min = 0`, `Max = 5s`, `Factor = 2`. A failed
connect draws `min(m * f^k, M)`, where `m`, `f`, `M` are the minimum, factor
and maximum that the library applies (a zero `Min`, `Factor`, `Max` standing
for 100ms, 2, 10s) and `k` is the number of delays drawn from the backoff
since its last reset. So in a run of `Start` in which the connects of `pre`
fail, the connect of `a` succeeds and its session ends with an error, and the
connects of `post` fail, the delays are those of `k = c, c + 1, ...` for `pre`,
with `c` the count the backoff arrives with (0 for the default backoff), and
those of `k = 0, 1, ...` for `post`: the Nth consecutive failure after a
successful connect draws `min(m * f^(N-1), M)`. The same holds in the loop from
any state, and the loop never changes the parameters of the backoff. -/
theorem backoff_delay_after_consecutive_failures
    (unmarshal : List Nat → Except GoError Message) (s : Stream) (dialer : Dialer)
    (su : Setup) (hprep : Start.prepare s dialer = .ok su) :
    su.bo = (match s.backoff with
      | some b => b
      | none => { Min := 0, Max := 5 * Second, Factor := 2, Jitter := true, attempt := 0 })
    ∧ (∀ (pre post : List Attempt) (a : Attempt) (err : GoError),
        (∀ b ∈ pre, (connect su b).2 ≠ none) →
        (connect su a).2 = none →
        (fetchTXs unmarshal su.cache a.session).err = some err →
        (∀ b ∈ post, (connect su b).2 ≠ none) →
        durations (Start unmarshal s dialer pre).trace
          = (List.range pre.length).map
              (fun k => min (su.bo.effMin * su.bo.effFactor ^ (su.bo.attempt + k))
                              su.bo.effMax)
        ∧ durations (Start unmarshal s dialer (pre ++ a :: post)).trace
          = (List.range pre.length).map
              (fun k => min (su.bo.effMin * su.bo.effFactor ^ (su.bo.attempt + k))
                              su.bo.effMax)
            ++ (List.range post.length).map
              (fun k => min (su.bo.effMin * su.bo.effFactor ^ k) su.bo.effMax))
    ∧ (∀ (st : LoopState) (fails : List Attempt),
        (∀ b ∈ fails, (connect su b).2 ≠ none) →
        durations (Start.loop unmarshal s su st fails).1
          = (List.range fails.length).map
              (fun k => min (st.bo.effMin * st.bo.effFactor ^ (st.bo.attempt + k))
                              st.bo.effMax))
    ∧ (∀ (st : LoopState) (a : Attempt) (err : GoError) (fails : List Attempt),
        (connect su a).2 = none →
        (fetchTXs unmarshal st.cache a.session).err = some err →
        (∀ b ∈ fails, (connect su b).2 ≠ none) →
        (Start.iteration unmarshal s su st a).2.1.bo = { st.bo with attempt := 0 }
        ∧ durations (Start.loop unmarshal s su st (a :: fails)).1
          = (List.range fails.length).map
              (fun k => min (st.bo.effMin * st.bo.effFactor ^ k) st.bo.effMax))
    ∧ (∀ (st : LoopState) (script : List Attempt),
        (Start.loop unmarshal s su st script).2.bo.Min = st.bo.Min
        ∧ (Start.loop unmarshal s su st script).2.bo.Max = st.bo.Max
        ∧ (Start.loop unmarshal s su st script).2.bo.Factor = st.bo.Factor
        ∧ (Start.loop unmarshal s su st script).2.bo.Jitter = st.bo.Jitter) := by
  have hafter : ∀ (st : LoopState) (a : Attempt) (err : GoError) (fails : List Attempt),
      (connect su a).2 = none →
      (fetchTXs unmarshal st.cache a.session).err = some err →
      (∀ b ∈ fails, (connect su b).2 ≠ none) →
      (Start.iteration unmarshal s su st a).2.1.bo = { st.bo with attempt := 0 }
      ∧ durations (Start.loop unmarshal s su st (a :: fails)).1
        = (List.range fails.length).map
            (fun k => min (st.bo.effMin * st.bo.effFactor ^ k) st.bo.effMax) := by
    intro st a err fails hconn hsess hfails
    have hi := iteration_session_failed unmarshal s su st a err hconn hsess
    refine ⟨by rw [hi]; rfl, ?_⟩
    have hd := iteration_connected_durations unmarshal s su st a hconn
    rw [hi] at hd
    rw [loop_cons_continue unmarshal s su st _ a fails _ hi, durations_append, hd,
      (loop_failures unmarshal s su fails _ hfails).1]
    simp only [Backoff.Reset, Nat.zero_add, List.nil_append]
    rfl
  refine ⟨?_, ?_, ?_, hafter, ?_⟩
  · unfold Start.prepare at hprep
    cases hcert : s.cert with
    | some cert =>
      rw [hcert] at hprep
      simp only [Except.ok.injEq] at hprep
      rw [← hprep]
      rfl
    | none =>
      rw [hcert] at hprep
      by_cases hauth : s.authHeader = ""
      · simp [hauth] at hprep
      · simp only [ne_eq, hauth, not_false_eq_true, if_true, Except.ok.injEq] at hprep
        rw [← hprep]
        rfl
  · intro pre post a err hpre hconn hsess hpost
    have hstart : ∀ script, (Start unmarshal s dialer script).trace
        = (Start.loop unmarshal s su
            { first := true, bo := su.bo, cache := su.cache } script).1 := by
      intro script
      simp only [Start, hprep]
    obtain ⟨hd, hst⟩ := loop_failures unmarshal s su pre
      { first := true, bo := su.bo, cache := su.cache } hpre
    refine ⟨by rw [hstart, hd], ?_⟩
    rw [hstart, loop_failures_append unmarshal s su pre (a :: post) _ hpre,
      durations_append, hd, hst]
    rw [(hafter _ a err post hconn hsess hpost).2]
    rfl
  · intro st fails hfails
    exact (loop_failures unmarshal s su fails st hfails).1
  · intro st script
    exact loop_backoff_parameters unmarshal s su script st

/-- C9 amended, at a configured backoff with `Min = 3`, `Max = 20`,
`Factor = 2` from which one delay was already drawn: two failed connects draw
6 and 12, the third connect succeeds and its session ends with a read error,
and the two failed connects that follow draw 3 and 6. -/
theorem backoff_delay_after_consecutive_failures_witness :
    durations (Start sampleUnmarshal
        { sampleStream with backoff := some ⟨3, 20, 2, false, 1⟩ } ⟨none⟩
        ([⟨some (.new "refused"), none, .ok [], []⟩,
          ⟨none, some (.new "broken pipe"), .ok [], []⟩]
          ++ ⟨none, none, .ok [123, 125], [⟨10, .error (.new "unexpected EOF")⟩]⟩
            :: [⟨none, none, .error (.new "unexpected EOF"), []⟩,
                ⟨none, none, .ok [34, 101, 114, 114, 111, 114, 34], []⟩])).trace
      = [6, 12, 3, 6] :=
  ((backoff_delay_after_consecutive_failures sampleUnmarshal
      { sampleStream with backoff := some ⟨3, 20, 2, false, 1⟩ } ⟨none⟩
      ⟨⟨none⟩, CloudWS, [("Authorization", "YWNjb3VudDpzZWNyZXQ=")], ⟨100⟩,
        ⟨3, 20, 2, false, 1⟩, Cache.New (1 * Minute) (2 * Minute)⟩ rfl).2.1
      [⟨some (.new "refused"), none, .ok [], []⟩,
       ⟨none, some (.new "broken pipe"), .ok [], []⟩]
      [⟨none, none, .error (.new "unexpected EOF"), []⟩,
       ⟨none, none, .ok [34, 101, 114, 114, 111, 114, 34], []⟩]
      ⟨none, none, .ok [123, 125], [⟨10, .error (.new "unexpected EOF")⟩]⟩
      (.new "unexpected EOF") (by decide) (by decide) (by decide) (by decide)).2.trans
    (by decide)

/-- C10: the subscribe handshake. When the dial and the write of the request
succeed and a response `msg` is read, `connect` fails with the error
`subscription failed` exactly when `msg` contains the marker `"error"`, and it
closes the transport exactly then. In that case the iteration of the loop is
the dial, the request, the read, the close, the error callback (when one is
set) with that error, and a backoff delay: the consume loop is not entered,
no record is forwarded and the cache and `first` are unchanged. -/
theorem connect_fails_on_error_marker
    (unmarshal : List Nat → Except GoError Message) (s : Stream) (su : Setup)
    (st : LoopState) (a : Attempt) (msg : List Nat)
    (hdial : a.dial = none) (hwrite : a.write = none) (hresp : a.resp = .ok msg) :
    ((connect su a).2 = some (.new "subscription failed") ↔ errorMarker <:+: msg)
    ∧ ((connect su a).2 ≠ none ↔ errorMarker <:+: msg)
    ∧ (Event.close ∈ (connect su a).1 ↔ errorMarker <:+: msg)
    ∧ (errorMarker <:+: msg →
        Start.iteration unmarshal s su st a
          = ([.dial su.url su.header su.dialer.TLSClientConfig, .write subscribeRequest,
                .read, .close]
              ++ (if s.onError then [Event.onError (.new "subscription failed")] else [])
              ++ [.duration st.bo.Duration.1, .sleep st.bo.Duration.1],
             { st with bo := st.bo.Duration.2 }, true)
        ∧ forwards (Start.iteration unmarshal s su st a).1 = []) := by
  by_cases hm : errorMarker <:+: msg
  · have hc : connect su a
        = ([.dial su.url su.header su.dialer.TLSClientConfig, .write subscribeRequest,
              .read, .close], some (.new "subscription failed")) := by
      simp [connect, hdial, hwrite, hresp, bytesContains, hm]
    have hi := iteration_connect_failed unmarshal s su st a (.new "subscription failed")
      (by rw [hc])
    rw [hc] at hi
    refine ⟨by simp [hc, hm], by simp [hc, hm], by simp [hc, hm], fun _ => ⟨hi, ?_⟩⟩
    rw [hi]
    cases s.onError <;> rfl
  · have hc : connect su a
        = ([.dial su.url su.header su.dialer.TLSClientConfig, .write subscribeRequest,
              .read], none) := by
      simp [connect, hdial, hwrite, hresp, bytesContains, hm]
    refine ⟨by simp [hc, hm], by simp [hc, hm], by simp [hc, hm], fun h => absurd h hm⟩

/-- C10 at the response `\x7b"error":1\x7d`. -/
theorem connect_fails_on_error_marker_witness :
    Start.iteration sampleUnmarshal sampleStream
        ⟨⟨none⟩, CloudWS, [("Authorization", "YWNjb3VudDpzZWNyZXQ=")], ⟨100⟩,
          ⟨3, 20, 2, true, 0⟩, Cache.New (1 * Minute) (2 * Minute)⟩
        ⟨true, ⟨3, 20, 2, true, 0⟩, Cache.New (1 * Minute) (2 * Minute)⟩
        ⟨none, none, .ok [123, 34, 101, 114, 114, 111, 114, 34, 58, 49, 125],
          [⟨10, .ok [1]⟩]⟩
      = ([.dial CloudWS [("Authorization", "YWNjb3VudDpzZWNyZXQ=")] none,
            .write subscribeRequest, .read, .close,
            .onError (.new "subscription failed"), .duration 3, .sleep 3],
         ⟨true, ⟨3, 20, 2, true, 1⟩, Cache.New (1 * Minute) (2 * Minute)⟩, true) :=
  ((connect_fails_on_error_marker sampleUnmarshal sampleStream
      ⟨⟨none⟩, CloudWS, [("Authorization", "YWNjb3VudDpzZWNyZXQ=")], ⟨100⟩,
        ⟨3, 20, 2, true, 0⟩, Cache.New (1 * Minute) (2 * Minute)⟩
      ⟨true, ⟨3, 20, 2, true, 0⟩, Cache.New (1 * Minute) (2 * Minute)⟩
      ⟨none, none, .ok [123, 34, 101, 114, 114, 111, 114, 34, 58, 49, 125],
        [⟨10, .ok [1]⟩]⟩
      [123, 34, 101, 114, 114, 111, 114, 34, 58, 49, 125] rfl rfl rfl).2.2.2
    (by decide)).1

end Bloxroute
